import Mathlib

/-
A verification development for the log-extraction program (extract_logs.py).

The program is embedded shallowly: the file content is a list of characters
(one character per byte; all inputs considered are ASCII, so the utf-8
decode with errors ignored is the identity), byte offsets are natural
numbers, and every Python function of the core is translated to a total
Lean function.  Loops whose bound is not structural carry an explicit fuel
argument; a result of none means the fuel was exhausted, and the while
loop of the chunk scanner is modelled this way so that non-termination of
the source loop is expressible (no fuel suffices).
-/

namespace ExtractLogs

/-- The "no date recognized" sentinel string "0000-00-00". -/
def noDateSentinel : List Char := "0000-00-00".toList

/-- The boundary detector's "no valid trailing date" sentinel "9999-99-99". -/
def maxSentinel : List Char := "9999-99-99".toList

/-- Python whitespace stripped by str.strip(). -/
def isPySpace (c : Char) : Bool :=
  c == ' ' || c == '\t' || c == '\n' || c == '\r' || c == '\x0b' || c == '\x0c'

/-- Model of Python str.strip(): drop whitespace from both ends. -/
def pyStrip (l : List Char) : List Char :=
  ((l.dropWhile isPySpace).reverse.dropWhile isPySpace).reverse

/-- Leftmost occurrence of sep in s: returns (text before sep, text after sep),
or none when sep does not occur.  Used to model Python str.split. -/
def findSplit (sep : List Char) : List Char → Option (List Char × List Char)
  | [] => if sep.isPrefixOf ([] : List Char) then some ([], []) else none
  | c :: cs =>
    if sep.isPrefixOf (c :: cs) then some ([], (c :: cs).drop sep.length)
    else (findSplit sep cs).map (fun p => (c :: p.1, p.2))

/-- Model of Python s.split(sep, maxsplit): splits on the leftmost occurrences
of sep, at most maxsplit times. -/
def pySplit (sep : List Char) : Nat → List Char → List (List Char)
  | 0, s => [s]
  | maxsplit + 1, s =>
    match findSplit sep s with
    | none => [s]
    | some (pre, rest) => pre :: pySplit sep maxsplit rest

/-- The separator " - " used by format_line_for_output. -/
def sepDash : List Char := " - ".toList

/-- The fractional-seconds pattern ".0000" removed from timestamps. -/
def dot0000 : List Char := ".0000".toList

/-- Substring test: model of Python (pat in s). -/
def containsSub (pat : List Char) : List Char → Bool
  | [] => pat.isPrefixOf ([] : List Char)
  | c :: cs => pat.isPrefixOf (c :: cs) || containsSub pat cs

/-- Model of timestamp.replace(".0000", ""): remove every non-overlapping
occurrence of ".0000", scanning left to right. -/
def strip0000 : List Char → List Char
  | [] => []
  | '.' :: '0' :: '0' :: '0' :: '0' :: rest => strip0000 rest
  | c :: cs => c :: strip0000 cs

/-- Structural check of extract_date_from_line: at least 10 characters and
the separator '-' at positions 4 and 7. -/
def structOK (l : List Char) : Prop :=
  10 ≤ l.length ∧ l.get? 4 = some '-' ∧ l.get? 7 = some '-'

instance (l : List Char) : Decidable (structOK l) := by
  unfold structOK; infer_instance

/-- Model of extract_date_from_line: empty line or failed structural check
give the "0000-00-00" sentinel; with a 'T' among the first 19 characters the
result is line.split('T')[0] (the part before the first 'T'), otherwise the
first 10 characters. -/
def extract_date_from_line (line : List Char) : List Char :=
  if line = [] then noDateSentinel
  else if structOK line then
    if 'T' ∈ line.take 19 then (pySplit ['T'] 1 line).headI
    else line.take 10
  else noDateSentinel

/-- Model of format_line_for_output: only lines containing 'T' are examined;
the line is split on " - " with maxsplit 2 (hence at most 3 parts); with 3
parts, every 'T' of part 1 becomes a space, every ".0000" occurrence is
removed when one is present, and the parts are rejoined separated by single
spaces; otherwise the line passes through unchanged. -/
def format_line_for_output (line : List Char) : List Char :=
  if 'T' ∈ line then
    match pySplit sepDash 2 line with
    | [p0, p1, p2] =>
      let timestamp := p0.map (fun c => if c = 'T' then ' ' else c)
      let timestamp := if containsSub dot0000 timestamp then strip0000 timestamp else timestamp
      timestamp ++ ' ' :: (p1 ++ ' ' :: p2)
    | _ => line
  else line

/-- Gregorian leap-year test, as used by Python's datetime (proleptic Gregorian). -/
def isLeapYear (y : Nat) : Bool :=
  (y % 4 == 0 && y % 100 != 0) || y % 400 == 0

/-- Days in the months before month m of a common year (m between 1 and 12). -/
def daysBeforeMonthCommon (m : Nat) : Nat :=
  match m with
  | 1 => 0 | 2 => 31 | 3 => 59 | 4 => 90 | 5 => 120 | 6 => 151
  | 7 => 181 | 8 => 212 | 9 => 243 | 10 => 273 | 11 => 304 | 12 => 334
  | _ => 0

/-- Days in the months strictly before month m of year y. -/
def daysBeforeMonth (y m : Nat) : Nat :=
  daysBeforeMonthCommon m + (if isLeapYear y && 2 < m then 1 else 0)

/-- Number of days of month m in year y. -/
def daysInMonth (y m : Nat) : Nat :=
  match m with
  | 1 => 31 | 2 => if isLeapYear y then 29 else 28 | 3 => 31 | 4 => 30
  | 5 => 31 | 6 => 30 | 7 => 31 | 8 => 31 | 9 => 30 | 10 => 31
  | 11 => 30 | 12 => 31
  | _ => 0

/-- Proleptic-Gregorian day number of the date (y, m, d): the count of days
since 0001-01-01.  Differences of day numbers agree with the .days attribute
of Python datetime subtraction. -/
def dayNumber (y m d : Nat) : Nat :=
  365 * (y - 1) + (y - 1) / 4 - (y - 1) / 100 + (y - 1) / 400 + daysBeforeMonth y m + (d - 1)

/-- Day number of a parsed (year, month, day) triple, as an integer. -/
def dayNumD (t : Nat × Nat × Nat) : Int :=
  (dayNumber t.1 t.2.1 t.2.2 : Int)

/-- Numeric value of a list of decimal digits. -/
def digitsToNat (l : List Char) : Nat :=
  l.foldl (fun n c => 10 * n + (c.toNat - 48)) 0

/-- The day field of strptime's "%d": one or two decimal digits, or a
space followed by a nonzero digit (CPython's day regex also accepts a
space-padded single digit).  Two-digit values above 31 fail CPython's
regex, but they also fail the days-in-month range check applied
afterwards, so the range test subsumes the regex bound. -/
def dayField (ds : List Char) : Option Nat :=
  if ds ≠ [] ∧ ds.length ≤ 2 ∧ ds.all Char.isDigit then some (digitsToNat ds)
  else
    match ds with
    | [' ', c] => if '1' ≤ c ∧ c ≤ '9' then some (c.toNat - 48) else none
    | _ => none

/-- Model of datetime.strptime(s, "%Y-%m-%d").  CPython's "%Y" matches
exactly four digits, "%m" one or two digits, and "%d" one or two digits or
a space-padded single digit (see dayField); the dashes are literal and the
whole string must be consumed.  The parsed values must form a valid
proleptic-Gregorian date (year at least 1, month 1..12, day within the
month).  Returns none exactly when strptime raises — in particular on the
sentinels "0000-00-00" (year 0) and "9999-99-99" (month 99). -/
def parseDate (s : List Char) : Option (Nat × Nat × Nat) :=
  match pySplit ['-'] s.length s with
  | [ys, ms, ds] =>
    if ys.length = 4 ∧ ys.all Char.isDigit ∧
       ms ≠ [] ∧ ms.length ≤ 2 ∧ ms.all Char.isDigit then
      match dayField ds with
      | some d =>
        let y := digitsToNat ys
        let m := digitsToNat ms
        if 1 ≤ y ∧ 1 ≤ m ∧ m ≤ 12 ∧ 1 ≤ d ∧ d ≤ daysInMonth y m then
          some (y, m, d)
        else none
      | none => none
    else none
  | _ => none

/-- Model of estimate_position.  The source parses the three dates inside
one try block (any failure gives 0, so the parse order is irrelevant) and
returns 0 when the min-to-max span is 0 days; both zero branches are exact
integer logic and are modelled faithfully.  The remaining branch of the
source evaluates int(file_size * (target_days / total_days)) in IEEE-double
arithmetic; here that expression is evaluated in exact rational arithmetic
with the final truncation toward zero (Int.tdiv).  The two agree whenever
the double rounding does not move the product across an integer boundary —
in particular at every input where a theorem of this development evaluates
this branch (ratios 1/2, 731 and -1/3 at file sizes 44, 40 and 10) — but
can differ elsewhere (in doubles int(49 * (1/49)) is 0 while the exact
value is 1), so no theorem here characterizes this branch in general. -/
def estimate_position (file_size : Nat) (target_date min_date max_date : List Char) : Int :=
  match parseDate min_date, parseDate max_date, parseDate target_date with
  | some min_d, some max_d, some target =>
    let total_days := dayNumD max_d - dayNumD min_d
    if total_days = 0 then 0
    else Int.tdiv ((file_size : Int) * (dayNumD target - dayNumD min_d)) total_days
  | _, _, _ => 0

/-- Model of f.readline() at byte offset pos: the bytes from pos up to and
including the next newline (or up to end of file), paired with the file
position afterwards (f.tell()).  At or past end of file it returns no bytes
and the position is unchanged, exactly as in Python. -/
def readLine (file : List Char) (pos : Nat) : List Char × Nat :=
  let rest := file.drop pos
  let pre := rest.takeWhile (fun c => c != '\n')
  if pre.length < rest.length then (pre ++ ['\n'], pos + pre.length + 1)
  else (pre, pos + pre.length)

/-- The bounded tail loop of find_date_boundaries: up to 100 lines are read;
an empty (stripped) line stops the loop; otherwise last_date is overwritten
whenever extract_date_from_line returns a nonempty string (Python's
"if date:").  Since the extractor returns the nonempty sentinel
"0000-00-00" on malformed lines, those lines overwrite last_date too. -/
def tailLoop (file : List Char) : Nat → Nat → List Char → List Char
  | 0, _, last_date => last_date
  | n + 1, pos, last_date =>
    let r := readLine file pos
    let line := pyStrip r.1
    if line = [] then last_date
    else
      let date := extract_date_from_line line
      tailLoop file n r.2 (if date ≠ [] then date else last_date)

/-- Model of find_date_boundaries: the first date comes from the first
physical line; then seek to max(0, file_size - 100000), skip one (possibly
partial) line, and run the 100-line tail loop starting from the sentinel
"9999-99-99". -/
def find_date_boundaries (file : List Char) : List Char × List Char :=
  let first_line := pyStrip (readLine file 0).1
  let first_date := extract_date_from_line first_line
  let pos := (max 0 ((file.length : Int) - 100000)).toNat
  let pos1 := (readLine file pos).2
  (first_date, tailLoop file 100 pos1 maxSentinel)

/-- One chunk scanner while loop of find_lines_for_date, with fuel: while
current_pos < end, read a line, update current_pos to f.tell(), and append
the formatted line when it is nonempty and its extracted date equals the
target.  none means the fuel ran out, i.e. the source loop has not finished
within that many iterations. -/
def scanLoop (file target_date : List Char) (endPos : Nat) : Nat → Nat → List (List Char) → Option (List (List Char))
  | 0, _, _ => none
  | fuel + 1, pos, acc =>
    if pos < endPos then
      let r := readLine file pos
      let line := pyStrip r.1
      let acc' := if line ≠ [] ∧ extract_date_from_line line = target_date
                  then acc ++ [format_line_for_output line] else acc
      scanLoop file target_date endPos fuel r.2 acc'
    else some acc

/-- Model of find_lines_for_date on one chunk: seek to chunk.start, discard
one line when chunk.start > 0, then run the scanning loop with the given
fuel. -/
def find_lines_for_date (chunk : Nat × Nat) (file target_date : List Char) (fuel : Nat) : Option (List (List Char)) :=
  let pos0 := if 0 < chunk.1 then (readLine file chunk.1).2 else chunk.1
  scanLoop file target_date chunk.2 fuel pos0 []

/-- The module constant chunk_size = 100 * 1024 * 1024 of process_file. -/
def CHUNK_SIZE : Nat := 100 * 1024 * 1024

/-- The coverage-chunk loop of process_file with explicit fuel: from start,
emit (start, min (start + CHUNK_SIZE) stop) and advance, while start < stop.
Each iteration advances start by at least one byte, so fuel stop - start
makes the fuel bound unreachable. -/
def coverChunksF : Nat → Nat → Nat → List (Nat × Nat)
  | 0, _, _ => []
  | fuel + 1, start, stop =>
    if start < stop then
      (start, min (start + CHUNK_SIZE) stop) :: coverChunksF fuel (min (start + CHUNK_SIZE) stop) stop
    else []

/-- The coverage chunks filling [start, stop) in steps of CHUNK_SIZE. -/
def coverChunks (start stop : Nat) : List (Nat × Nat) :=
  coverChunksF (stop - start) start stop

/-- primary_chunk_size = min(chunk_size * 2, file_size // 2). -/
def primarySize (file_size : Nat) : Nat :=
  min (CHUNK_SIZE * 2) (file_size / 2)

/-- primary_start = max(0, estimated_pos - primary_chunk_size // 2). -/
def primaryStart (file_size : Nat) (estimated_pos : Int) : Nat :=
  (max 0 (estimated_pos - (primarySize file_size / 2 : Nat))).toNat

/-- primary_end = min(file_size, primary_start + primary_chunk_size). -/
def primaryEnd (file_size : Nat) (estimated_pos : Int) : Nat :=
  min file_size (primaryStart file_size estimated_pos + primarySize file_size)

/-- The chunk list built by process_file: the primary chunk first, then the
coverage chunks before it (ascending), then the coverage chunks after it
(ascending). -/
def planChunks (file_size : Nat) (estimated_pos : Int) : List (Nat × Nat) :=
  (primaryStart file_size estimated_pos, primaryEnd file_size estimated_pos) ::
    (coverChunks 0 (primaryStart file_size estimated_pos) ++
     coverChunks (primaryEnd file_size estimated_pos) file_size)

/-- The result-writing loop of process_file: iterate chunk results in order,
write each line followed by a newline and increment the count.  Returns the
written character stream and the final count. -/
def write_results (chunk_results : List (List (List Char))) : List Char × Nat :=
  chunk_results.foldl
    (fun acc result_set =>
      result_set.foldl (fun a line => (a.1 ++ line ++ ['\n'], a.2 + 1)) acc)
    ([], 0)

/-- One process_file run up to the per-chunk results.  process_file first
memory-maps the file: mmap.mmap(f.fileno(), 0, ACCESS_READ) raises
ValueError on an empty file, the enclosing except catches it and the run
fails with no output, so an empty file yields none here.  Otherwise
boundary detection, estimation and planning run, and every scanner
invocation is given fuel file length + 2 (ample whenever the chunk end is
at most the file length, since every loop iteration below the end advances
the position); none also results when some scanner loop does not finish
within that fuel. -/
def run_chunks (file target_date : List Char) : Option (List (List (List Char))) :=
  if file.length = 0 then none
  else
    let fs := file.length
    let bounds := find_date_boundaries file
    let est := estimate_position fs target_date bounds.1 bounds.2
    (planChunks fs est).mapM (fun c => find_lines_for_date c file target_date (fs + 2))

/-- All matched lines of a full run in chunk-emission order, or none when
the run fails. -/
def process_matches (file target_date : List Char) : Option (List (List Char)) :=
  (run_chunks file target_date).map List.flatten

/-- A full run: the written output stream and the reported count, or none
when the run fails and no output is produced. -/
def process_run (file target_date : List Char) : Option (List Char × Nat) :=
  (run_chunks file target_date).map write_results

/-- The physical lines of a file, as successive readline calls from offset 0
return them (trailing newline kept; a final unterminated chunk is one line;
fuel file length is enough since every line is nonempty). -/
def linesOfF : Nat → List Char → List (List Char)
  | 0, rest => if rest = [] then [] else [rest]
  | fuel + 1, file =>
    if file = [] then []
    else
      let pre := file.takeWhile (fun c => c != '\n')
      if pre.length < file.length then (pre ++ ['\n']) :: linesOfF fuel (file.drop (pre.length + 1))
      else [file]

/-- The physical lines of a file. -/
def linesOf (file : List Char) : List (List Char) :=
  linesOfF file.length file

/-- Replace the first 'T' of a string by a space (one reading of the claim's
"its 'T' date/time separator replaced by a space"). -/
def replaceFirstT : List Char → List Char
  | [] => []
  | c :: cs => if c = 'T' then ' ' :: cs else c :: replaceFirstT cs

/-- Strip one literal ".0000" suffix when present (the claim's "a literal
'.0000' fractional-seconds suffix stripped if present"). -/
def stripSuffix0000 (l : List Char) : List Char :=
  if dot0000.isSuffixOf l then l.take (l.length - 5) else l

/-- Modelled from the claim's wording for the Line Normalizer, which has no
'T' guard: split on " - " into at most 3 parts; with fewer than 3 parts
return the line unchanged; with 3 parts transform part 1 (first 'T' to a
space, ".0000" suffix stripped) and rejoin with single spaces. -/
def formatClaimed (line : List Char) : List Char :=
  match pySplit sepDash 2 line with
  | [p0, p1, p2] => stripSuffix0000 (replaceFirstT p0) ++ ' ' :: (p1 ++ ' ' :: p2)
  | _ => line

/-- Membership of byte offset x in the half-open chunk c. -/
def inChunk (c : Nat × Nat) (x : Nat) : Prop :=
  c.1 ≤ x ∧ x < c.2

/-- The partition property exactly as the claim states it: every chunk is a
nonempty half-open range inside the file, chunks are pairwise disjoint, and
the union of the chunks is [0, file_size). -/
def chunksClaimP (file_size : Nat) (cs : List (Nat × Nat)) : Prop :=
  (∀ c ∈ cs, c.1 < c.2 ∧ c.2 ≤ file_size) ∧
  List.Pairwise (fun c d => ∀ x, inChunk c x → ¬ inChunk d x) cs ∧
  (∀ x, x < file_size ↔ ∃ c ∈ cs, inChunk c x)

/-- The amended partition property: each chunk satisfies
start ≤ end ≤ file_size, only the leading (primary) chunk may be empty,
chunks are pairwise disjoint, and their union is [0, file_size). -/
def chunksPartitionP (file_size : Nat) (cs : List (Nat × Nat)) : Prop :=
  (∀ c ∈ cs, c.1 ≤ c.2 ∧ c.2 ≤ file_size) ∧
  (∀ c ∈ cs.tail, c.1 < c.2) ∧
  List.Pairwise (fun c d => ∀ x, inChunk c x → ¬ inChunk d x) cs ∧
  (∀ x, x < file_size ↔ ∃ c ∈ cs, inChunk c x)

/-- A 44-byte log file of four dated lines; its chunk plan puts a chunk
boundary exactly at offset 11, the start of the second line. -/
def logFileA : List Char :=
  "2024-01-01\n2024-01-02\n2024-01-02\n2024-01-03\n".toList

/-- The target date of the run over logFileA. -/
def targetA : List Char := "2024-01-02".toList

/-- A 40-byte log file of two timestamped lines. -/
def logFileB : List Char :=
  "2024-01-01T00:00:00\n2024-01-02T00:00:00\n".toList

/-- A target date far beyond the date range of logFileB, making the position
estimate overshoot the file size. -/
def targetB : List Char := "2026-01-01".toList

/-- A file whose last 100000 bytes contain no line passing the date-token
structural check, but which has nonempty lines in the tail window. -/
def logFileC : List Char := "garbage one\ngarbage two\n".toList

/-- C1: on logFileA with target 2024-01-02, the run returns a single matched
line although two lines of the file carry the target date: the matching line
beginning exactly at chunk start 11 is discarded by that chunk's leading
line skip and was never read by the chunk ending at 11.  This evaluates the
code at the failing input of the completeness claim. -/
theorem boundary_line_lost :
    process_matches logFileA targetA = some ["2024-01-02".toList] ∧
    ((linesOf logFileA).map pyStrip).countP
      (fun l => extract_date_from_line l == targetA) = 2 := by
  decide

/-- C5 failing input evaluated: on a file whose tail window has nonempty
lines but none passing the structural check, the boundary detector returns
maxDate "0000-00-00" (the extractor's sentinel is a nonempty, hence truthy,
string, so the "if date:" guard lets it overwrite), not the claimed
"9999-99-99". -/
theorem maxdate_overwritten_by_extractor_sentinel :
    (find_date_boundaries logFileC).2 = noDateSentinel ∧
    noDateSentinel ≠ maxSentinel := by
  decide

/-- C9 counterexample: for a target date one day before minDate and a
three-day range over a 10-byte file, the code truncates -10/3 toward zero
and returns -3, while the claimed floor is -4.  The exact-rational model
agrees with the program's doubles at this input: the double nearest -1/3
times 10.0 lies strictly between -4 and -3, so int() truncates it to -3
exactly as Int.tdiv does. -/
theorem estimate_position_truncates_not_floors :
    estimate_position 10 "2024-01-03".toList "2024-01-04".toList "2024-01-07".toList = -3 ∧
    Int.fdiv ((10 : Int) * (dayNumD (2024, 1, 3) - dayNumD (2024, 1, 4)))
      (dayNumD (2024, 1, 7) - dayNumD (2024, 1, 4)) = -4 := by
  decide

/-- C7 counterexample: a line with two " - " separators but no 'T' is
returned unchanged by the code, while the claim's transformation (split and
rejoin with single spaces) changes it. -/
theorem format_line_needs_T_guard :
    format_line_for_output "2024-01-01 10:00:00 - INFO - hello".toList =
      "2024-01-01 10:00:00 - INFO - hello".toList ∧
    formatClaimed "2024-01-01 10:00:00 - INFO - hello".toList =
      "2024-01-01 10:00:00 INFO hello".toList ∧
    "2024-01-01 10:00:00 - INFO - hello".toList ≠
      "2024-01-01 10:00:00 INFO hello".toList := by
  decide

/-- C8 counterexample: the structured line "T - a - T - b - c" (it contains
a 'T' and splits into 3 parts) normalizes to "  a T - b - c", and a second
application changes that to "  a   b c": the normalizer is not idempotent on
its own outputs. -/
theorem format_line_not_idempotent :
    ('T' ∈ "T - a - T - b - c".toList ∧
      pySplit sepDash 2 "T - a - T - b - c".toList =
        ["T".toList, "a".toList, "T - b - c".toList]) ∧
    format_line_for_output (format_line_for_output "T - a - T - b - c".toList) ≠
      format_line_for_output "T - a - T - b - c".toList := by
  decide

/-- C2 counterexample: with file size 1000 and estimated offset 365000 (the
estimator produces such offsets for targets far beyond maxDate), the planner
emits the chunk (364750, 1000), which is not a nonempty range inside the
file, and the chunk list does not partition [0, 1000). -/
theorem planChunks_overshoot_not_partition :
    ¬ chunksClaimP 1000 (planChunks 1000 365000) := by
  intro h
  exact absurd ((h.1 (364750, 1000) (by decide)).1) (by decide)

/-- C4: the claimed graceful degradation does not happen.  On the empty
file, mmap.mmap raises ValueError before any boundary detection runs, the
except in process_file turns that into a failed run, and no output file is
created: the modelled run returns none for every target date.  The
components downstream of the mmap acquisition would indeed degrade exactly
as the claim describes — sentinel boundaries, estimate 0, the single chunk
[0, 0) — but the run never reaches them. -/
theorem empty_file_run_fails (target_date : List Char) :
    process_run [] target_date = none ∧
    process_matches [] target_date = none ∧
    find_date_boundaries [] = (noDateSentinel, maxSentinel) ∧
    estimate_position 0 target_date noDateSentinel maxSentinel = 0 ∧
    planChunks 0 (estimate_position 0 target_date noDateSentinel maxSentinel) = [(0, 0)] := by
  exact ⟨rfl, rfl, by decide, rfl, rfl⟩

/-- Once the scanner's position has reached end of file while still short of
the chunk end, readline returns nothing and does not advance the position,
so the while loop of find_lines_for_date never finishes: no fuel gives a
result. -/
theorem scanLoop_stuck_at_eof (file target_date : List Char) (endPos pos : Nat)
    (hpos : file.length ≤ pos) (hlt : pos < endPos) :
    ∀ fuel acc, scanLoop file target_date endPos fuel pos acc = none := by
  have hr : readLine file pos = ([], pos) := by
    unfold readLine
    have hd : file.drop pos = [] := List.drop_eq_nil_of_le hpos
    simp [hd]
  intro fuel
  induction fuel with
  | zero => intro acc; rfl
  | succ n ih =>
    intro acc
    simp only [scanLoop, hr, if_pos hlt]
    have hstrip : pyStrip [] = [] := rfl
    simp only [hstrip]
    simp only [ne_eq, not_true_eq_false, false_and, if_false]
    exact ih acc

/-- C3: on the 40-byte logFileB with target 2026-01-01 the pipeline's own
boundary detection and estimate make the planner emit the coverage chunk
(0, 29230), whose end exceeds the file size; the scanner on that chunk
reaches end of file at offset 40 and then loops forever (no fuel value
makes the loop finish), contradicting the claim that reading stops when end
of file is reached first. -/
theorem scanner_loop_never_finishes :
    find_date_boundaries logFileB = ("2024-01-01".toList, "2024-01-02".toList) ∧
    estimate_position 40 targetB "2024-01-01".toList "2024-01-02".toList = 29240 ∧
    planChunks 40 29240 = [(29230, 40), (0, 29230)] ∧
    ∀ fuel, find_lines_for_date (0, 29230) logFileB targetB fuel = none := by
  refine ⟨by decide, by decide, by decide, ?_⟩
  intro fuel
  show scanLoop logFileB targetB 29230 fuel 0 [] = none
  match fuel with
  | 0 => rfl
  | 1 => rfl
  | (n + 2) =>
    have hstep : scanLoop logFileB targetB 29230 (n + 2) 0 [] =
        scanLoop logFileB targetB 29230 n 40 [] := rfl
    rw [hstep]
    exact scanLoop_stuck_at_eof logFileB targetB 29230 40 (by decide) (by decide) n []

/-- When character c occurs in l, findSplit on the one-character separator
[c] yields the part of l before the first occurrence of c. -/
theorem findSplit_singleton_of_mem {c : Char} {l : List Char} (h : c ∈ l) :
    ∃ rest, findSplit [c] l = some (l.takeWhile (fun a => a != c), rest) := by
  induction l with
  | nil => cases h
  | cons a as ih =>
    by_cases hac : a = c
    · subst hac
      refine ⟨as, ?_⟩
      simp [findSplit, List.isPrefixOf, List.takeWhile]
    · have h' : c ∈ as := by
        rcases List.mem_cons.mp h with h1 | h1
        · exact absurd h1.symm hac
        · exact h1
      obtain ⟨rest, hr⟩ := ih h'
      refine ⟨rest, ?_⟩
      have hpre : List.isPrefixOf [c] (a :: as) = false := by
        simp [List.isPrefixOf]
        exact fun hca => absurd hca.symm hac
      have hbne : (a != c) = true := bne_iff_ne.mpr hac
      simp [findSplit, hpre, hr, List.takeWhile, hbne]

/-- C6: the Date Extractor is a total function and returns the part of the
line before its first 'T' when the structural check passes and a 'T' occurs
among the first 19 characters; the first 10 characters when the structural
check passes and no such 'T' exists; and the sentinel "0000-00-00" on every
line failing the structural check (the empty line included, since its
length is below 10). -/
theorem extract_date_characterization (l : List Char) :
    (¬ structOK l → extract_date_from_line l = noDateSentinel) ∧
    (structOK l → 'T' ∈ l.take 19 →
      extract_date_from_line l = l.takeWhile (fun c => c != 'T')) ∧
    (structOK l → 'T' ∉ l.take 19 → extract_date_from_line l = l.take 10) := by
  refine ⟨?_, ?_, ?_⟩
  · intro h
    unfold extract_date_from_line
    by_cases hl : l = []
    · simp [hl]
    · simp [hl, h]
  · intro hs hT
    have hl : l ≠ [] := by
      intro h
      rw [h] at hs
      exact absurd hs (by decide)
    have hTl : 'T' ∈ l := List.take_subset 19 l hT
    obtain ⟨rest, hr⟩ := findSplit_singleton_of_mem hTl
    unfold extract_date_from_line
    rw [if_neg hl, if_pos hs, if_pos hT]
    show (pySplit ['T'] 1 l).headI = _
    unfold pySplit
    rw [hr]
    rfl
  · intro hs hT
    have hl : l ≠ [] := by
      intro h
      rw [h] at hs
      exact absurd hs (by decide)
    unfold extract_date_from_line
    rw [if_neg hl, if_pos hs, if_neg hT]

/-- The C6 characterization applied at concrete lines: a timestamped log
line yields the text before its first 'T', and a short line yields the
sentinel. -/
theorem extract_date_characterization_witness :
    extract_date_from_line "2024-12-01T02:49:15.0000".toList =
      ("2024-12-01T02:49:15.0000".toList).takeWhile (fun c => c != 'T') ∧
    extract_date_from_line "hi".toList = noDateSentinel :=
  ⟨(extract_date_characterization "2024-12-01T02:49:15.0000".toList).2.1
      (by decide) (by decide),
   (extract_date_characterization "hi".toList).1 (by decide)⟩

/-- When the head of the list does not start the ".0000" pattern, strip0000
keeps the head and continues on the tail. -/
theorem strip0000_cons_of_no_match (c : Char) (cs : List Char)
    (h1 : ∀ rest, c = '.' → cs = '0' :: '0' :: '0' :: '0' :: rest → False) :
    strip0000 (c :: cs) = c :: strip0000 cs := by
  rw [strip0000.eq_def]
  split
  · rename_i heq
    exact absurd heq (by simp)
  · rename_i rest heq
    injection heq with hc hcs
    exact (h1 rest hc hcs).elim
  · rename_i c2 cs2 heq
    injection heq with hc hcs
    subst hc
    subst hcs
    rfl

/-- A string with no ".0000" occurrence is unchanged by strip0000 (so the
source's conditional replace equals the unconditional one). -/
theorem strip0000_id (l : List Char) (h : containsSub dot0000 l = false) :
    strip0000 l = l := by
  induction l using strip0000.induct
  case case1 => rfl
  case case2 rest ih =>
    exact absurd h (by simp [containsSub, dot0000, List.isPrefixOf])
  case case3 c cs h1 ih =>
    simp only [containsSub, Bool.or_eq_false_iff] at h
    rw [strip0000_cons_of_no_match c cs h1, ih h.2]

/-- Every character of strip0000 l comes from l. -/
theorem mem_of_mem_strip0000 (x : Char) : ∀ (l : List Char), x ∈ strip0000 l → x ∈ l := by
  intro l
  induction l using strip0000.induct
  case case1 => simp [strip0000]
  case case2 rest ih =>
    intro h
    rw [show strip0000 ('.' :: '0' :: '0' :: '0' :: '0' :: rest) = strip0000 rest from rfl] at h
    have := ih h
    simp only [List.mem_cons]
    tauto
  case case3 c cs h1 ih =>
    intro h
    rw [strip0000_cons_of_no_match c cs h1] at h
    simp only [List.mem_cons] at h ⊢
    rcases h with h | h
    · exact Or.inl h
    · exact Or.inr (ih h)

/-- Splitting with maxsplit n produces at most n + 1 parts. -/
theorem pySplit_length_le (sep : List Char) : ∀ (n : Nat) (s : List Char),
    (pySplit sep n s).length ≤ n + 1 := by
  intro n
  induction n with
  | zero => intro s; simp [pySplit]
  | succ m ih =>
    intro s
    unfold pySplit
    cases h : findSplit sep s with
    | none => simp
    | some p =>
      cases p with
      | mk pre rest =>
        simpa using Nat.succ_le_succ (ih rest)

/-- A line without 'T' passes through format_line_for_output unchanged. -/
theorem format_line_of_not_T (l : List Char) (h : 'T' ∉ l) :
    format_line_for_output l = l := by
  unfold format_line_for_output
  rw [if_neg h]

/-- When the line contains a 'T' and splits into exactly three parts, the
formatted output is the transformed first part (every 'T' a space, every
".0000" removed) joined to the other two parts by single spaces. -/
theorem format_line_of_parts (l p0 p1 p2 : List Char)
    (hT : 'T' ∈ l) (hp : pySplit sepDash 2 l = [p0, p1, p2]) :
    format_line_for_output l =
      strip0000 (p0.map (fun c => if c = 'T' then ' ' else c)) ++ ' ' :: (p1 ++ ' ' :: p2) := by
  unfold format_line_for_output
  rw [if_pos hT, hp]
  by_cases hc : containsSub dot0000 (p0.map (fun c => if c = 'T' then ' ' else c)) = true
  · simp only [hc, if_true]
  · have hc' : containsSub dot0000 (p0.map (fun c => if c = 'T' then ' ' else c)) = false :=
      Bool.not_eq_true _ ▸ Bool.eq_false_iff.mpr hc
    simp only [hc', Bool.false_eq_true, if_false, strip0000_id _ hc']

/-- C7 (amended): the split on " - " with maxsplit 2 yields at most 3
parts; a line with no 'T', or splitting into fewer than 3 parts, is
returned unchanged; a line containing a 'T' that splits into 3 parts is
rewritten to part 1 with every 'T' replaced by a space and every ".0000"
occurrence removed, rejoined with the other parts by single spaces. -/
theorem format_line_characterization (l : List Char) :
    (pySplit sepDash 2 l).length ≤ 3 ∧
    (('T' ∉ l ∨ (pySplit sepDash 2 l).length < 3) → format_line_for_output l = l) ∧
    (∀ p0 p1 p2, 'T' ∈ l → pySplit sepDash 2 l = [p0, p1, p2] →
      format_line_for_output l =
        strip0000 (p0.map (fun c => if c = 'T' then ' ' else c)) ++ ' ' :: (p1 ++ ' ' :: p2)) := by
  refine ⟨pySplit_length_le sepDash 2 l, ?_, ?_⟩
  · intro h
    rcases h with h | h
    · exact format_line_of_not_T l h
    · by_cases hT : 'T' ∈ l
      · unfold format_line_for_output
        rw [if_pos hT]
        rcases hp : pySplit sepDash 2 l with _ | ⟨a, _ | ⟨b, _ | ⟨c, tl⟩⟩⟩
        · rfl
        · rfl
        · rfl
        · rw [hp] at h
          cases tl with
          | nil => simp at h
          | cons d tl2 => rfl
      · exact format_line_of_not_T l hT
  · intro p0 p1 p2 hT hp
    exact format_line_of_parts l p0 p1 p2 hT hp

/-- The C7 characterization applied at concrete lines: a structured
timestamped line is rewritten, and a line with a single " - " separator
passes through unchanged. -/
theorem format_line_characterization_witness :
    format_line_for_output "2024-12-01T02:49:15.0000 - INFO - ok".toList =
      strip0000 (("2024-12-01T02:49:15.0000".toList).map (fun c => if c = 'T' then ' ' else c)) ++
        ' ' :: ("INFO".toList ++ ' ' :: "ok".toList) ∧
    format_line_for_output "2024-12-01T02:49:15.0000 - oops".toList =
      "2024-12-01T02:49:15.0000 - oops".toList :=
  ⟨(format_line_characterization "2024-12-01T02:49:15.0000 - INFO - ok".toList).2.2
      "2024-12-01T02:49:15.0000".toList "INFO".toList "ok".toList (by decide) (by decide),
   (format_line_characterization "2024-12-01T02:49:15.0000 - oops".toList).2.1
      (Or.inr (by decide))⟩

/-- C8 (amended): for a structured line (it contains a 'T' and splits on
" - " into 3 parts) whose second and third parts are free of 'T', the
normalized output contains no 'T' at all, so a second application of the
Line Normalizer returns it unchanged. -/
theorem format_line_idempotent_when_tail_T_free (l p0 p1 p2 : List Char)
    (hT : 'T' ∈ l) (hp : pySplit sepDash 2 l = [p0, p1, p2])
    (h1 : 'T' ∉ p1) (h2 : 'T' ∉ p2) :
    format_line_for_output (format_line_for_output l) = format_line_for_output l := by
  have hf := format_line_of_parts l p0 p1 p2 hT hp
  have hnoT : 'T' ∉ format_line_for_output l := by
    rw [hf]
    intro hmem
    rcases List.mem_append.mp hmem with hm | hm
    · have hm2 := mem_of_mem_strip0000 'T' _ hm
      rcases List.mem_map.mp hm2 with ⟨a, _, ha⟩
      by_cases haT : a = 'T'
      · rw [if_pos haT] at ha
        exact absurd ha (by decide)
      · rw [if_neg haT] at ha
        exact haT ha
    · rcases List.mem_cons.mp hm with hm1 | hm1
      · exact absurd hm1 (by decide)
      · rcases List.mem_append.mp hm1 with hm3 | hm3
        · exact h1 hm3
        · rcases List.mem_cons.mp hm3 with hm4 | hm4
          · exact absurd hm4 (by decide)
          · exact h2 hm4
  exact format_line_of_not_T _ hnoT

/-- The C8 amended theorem applied at a concrete structured line whose
field and message parts contain no 'T'. -/
theorem format_line_idempotent_witness :
    format_line_for_output (format_line_for_output "2024-12-01T02:49:15.0000 - INFO - ok".toList) =
      format_line_for_output "2024-12-01T02:49:15.0000 - INFO - ok".toList :=
  format_line_idempotent_when_tail_T_free "2024-12-01T02:49:15.0000 - INFO - ok".toList
    "2024-12-01T02:49:15.0000".toList "INFO".toList "ok".toList
    (by decide) (by decide) (by decide) (by decide)

/-- C9 (amended): the float-free clauses of the Position Estimator: it
returns 0 when any of the three dates fails to parse, and 0 when the
parsed min-to-max span is 0 days — in particular whenever minDate equals
maxDate.  The remaining branch is evaluated by the program in IEEE-double
arithmetic and is not characterized by this development beyond the
concrete truncation counterexample; see the doc comment of
estimate_position. -/
theorem estimate_position_zero_cases (file_size : Nat)
    (target_date min_date max_date : List Char) :
    ((parseDate target_date = none ∨ parseDate min_date = none ∨ parseDate max_date = none) →
      estimate_position file_size target_date min_date max_date = 0) ∧
    (∀ t mn mx, parseDate target_date = some t → parseDate min_date = some mn →
      parseDate max_date = some mx → dayNumD mx - dayNumD mn = 0 →
      estimate_position file_size target_date min_date max_date = 0) ∧
    (min_date = max_date → estimate_position file_size target_date min_date max_date = 0) := by
  refine ⟨?_, ?_, ?_⟩
  · intro h
    unfold estimate_position
    rcases hmn : parseDate min_date with _ | mn
    · rfl
    · rcases hmx : parseDate max_date with _ | mx
      · rfl
      · rcases ht : parseDate target_date with _ | t
        · rfl
        · exfalso
          rcases h with h | h | h
          · rw [ht] at h; exact Option.noConfusion h
          · rw [hmn] at h; exact Option.noConfusion h
          · rw [hmx] at h; exact Option.noConfusion h
  · intro t mn mx ht hmn hmx h0
    simp only [estimate_position, hmn, hmx, ht]
    rw [if_pos h0]
  · intro h
    subst h
    rcases hmn : parseDate min_date with _ | mn
    · unfold estimate_position
      rw [hmn]
    · rcases ht : parseDate target_date with _ | t
      · unfold estimate_position
        rw [hmn, ht]
      · unfold estimate_position
        rw [hmn, ht]
        simp

/-- The C9 zero clauses applied at concrete dates: a zero-day span between
two differently written spellings of the same date, and an unparsable
target. -/
theorem estimate_position_zero_cases_witness :
    estimate_position 7 "2024-06-15".toList "2024-02-02".toList "2024-2-2".toList = 0 ∧
    estimate_position 9 "bad".toList "2024-02-02".toList "2024-02-03".toList = 0 :=
  ⟨(estimate_position_zero_cases 7 "2024-06-15".toList "2024-02-02".toList
        "2024-2-2".toList).2.1
      (2024, 6, 15) (2024, 2, 2) (2024, 2, 2) (by decide) (by decide) (by decide) (by decide),
   (estimate_position_zero_cases 9 "bad".toList "2024-02-02".toList "2024-02-03".toList).1
      (Or.inl (by decide))⟩

/-- Bounds, ordering and coverage of the fueled coverage-chunk walk: with
enough fuel, every emitted chunk is a nonempty subrange of [start, stop),
consecutive chunks are ordered (each ends before the next starts), and the
chunks cover [start, stop) exactly. -/
theorem coverChunksF_props : ∀ (fuel start stop : Nat), stop - start ≤ fuel →
    (∀ c ∈ coverChunksF fuel start stop, start ≤ c.1 ∧ c.1 < c.2 ∧ c.2 ≤ stop) ∧
    List.Pairwise (fun c d => c.2 ≤ d.1) (coverChunksF fuel start stop) ∧
    (∀ x, (∃ c ∈ coverChunksF fuel start stop, inChunk c x) ↔ (start ≤ x ∧ x < stop)) := by
  intro fuel
  induction fuel with
  | zero =>
    intro start stop h
    refine ⟨?_, ?_, ?_⟩
    · intro c hc
      simp [coverChunksF] at hc
    · simp [coverChunksF]
    · intro x
      simp only [coverChunksF, List.not_mem_nil, false_and, exists_false, false_iff, not_and,
        Nat.not_lt]
      omega
  | succ n ih =>
    intro start stop h
    by_cases hlt : start < stop
    · have hC : 0 < CHUNK_SIZE := by decide
      have hm1 : start < min (start + CHUNK_SIZE) stop := by omega
      have hm2 : min (start + CHUNK_SIZE) stop ≤ stop := by omega
      obtain ⟨hb, hpw, hcov⟩ := ih (min (start + CHUNK_SIZE) stop) stop (by omega)
      have hunf : coverChunksF (n + 1) start stop =
          (start, min (start + CHUNK_SIZE) stop) ::
            coverChunksF n (min (start + CHUNK_SIZE) stop) stop := by
        simp [coverChunksF, hlt]
      rw [hunf]
      refine ⟨?_, ?_, ?_⟩
      · intro c hc
        rcases List.mem_cons.mp hc with hc | hc
        · subst hc
          exact ⟨Nat.le_refl _, hm1, hm2⟩
        · obtain ⟨h1, h2, h3⟩ := hb c hc
          exact ⟨by omega, h2, h3⟩
      · refine List.pairwise_cons.mpr ⟨?_, hpw⟩
        intro d hd
        exact (hb d hd).1
      · intro x
        constructor
        · rintro ⟨c, hc, hcx⟩
          rcases List.mem_cons.mp hc with hc | hc
          · subst hc
            unfold inChunk at hcx
            simp only at hcx
            omega
          · have := (hcov x).mp ⟨c, hc, hcx⟩
            omega
        · intro hx
          by_cases hxm : x < min (start + CHUNK_SIZE) stop
          · exact ⟨(start, min (start + CHUNK_SIZE) stop), List.mem_cons_self _ _, hx.1, hxm⟩
          · obtain ⟨c, hc, hcx⟩ := (hcov x).mpr ⟨by omega, hx.2⟩
            exact ⟨c, List.mem_cons_of_mem _ hc, hcx⟩
    · have hunf : coverChunksF (n + 1) start stop = [] := by
        simp [coverChunksF, hlt]
      rw [hunf]
      refine ⟨by simp, by simp, ?_⟩
      intro x
      simp only [List.not_mem_nil, false_and, exists_false, false_iff, not_and, Nat.not_lt]
      omega

/-- The coverage-chunk properties for the exact-fuel wrapper. -/
theorem coverChunks_props (start stop : Nat) :
    (∀ c ∈ coverChunks start stop, start ≤ c.1 ∧ c.1 < c.2 ∧ c.2 ≤ stop) ∧
    List.Pairwise (fun c d => c.2 ≤ d.1) (coverChunks start stop) ∧
    (∀ x, (∃ c ∈ coverChunks start stop, inChunk c x) ↔ (start ≤ x ∧ x < stop)) :=
  coverChunksF_props (stop - start) start stop (Nat.le_refl _)

/-- When the estimated offset does not exceed the file size, the primary
chunk start stays inside the file. -/
theorem primaryStart_le (file_size : Nat) (estimated_pos : Int)
    (h : estimated_pos ≤ (file_size : Int)) :
    primaryStart file_size estimated_pos ≤ file_size := by
  unfold primaryStart
  omega

/-- C2 (amended): for every file size and every estimated offset that does
not exceed the file size (negative offsets included), the planner's chunks
are pairwise disjoint half-open ranges with start ≤ end ≤ file_size, every
chunk after the primary one is nonempty, and their union is exactly
[0, file_size). -/
theorem planChunks_partition (file_size : Nat) (estimated_pos : Int)
    (h : estimated_pos ≤ (file_size : Int)) :
    chunksPartitionP file_size (planChunks file_size estimated_pos) := by
  have hps : primaryStart file_size estimated_pos ≤ file_size :=
    primaryStart_le file_size estimated_pos h
  have hpe1 : primaryStart file_size estimated_pos ≤ primaryEnd file_size estimated_pos := by
    unfold primaryEnd
    omega
  have hpe2 : primaryEnd file_size estimated_pos ≤ file_size := by
    unfold primaryEnd
    omega
  obtain ⟨hb1, hpw1, hcov1⟩ := coverChunks_props 0 (primaryStart file_size estimated_pos)
  obtain ⟨hb2, hpw2, hcov2⟩ := coverChunks_props (primaryEnd file_size estimated_pos) file_size
  unfold chunksPartitionP planChunks
  refine ⟨?_, ?_, ?_, ?_⟩
  · intro c hc
    rcases List.mem_cons.mp hc with hc | hc
    · rw [hc]
      exact ⟨hpe1, hpe2⟩
    · rcases List.mem_append.mp hc with hc | hc
      · obtain ⟨h1, h2, h3⟩ := hb1 c hc
        exact ⟨Nat.le_of_lt h2, by omega⟩
      · obtain ⟨h1, h2, h3⟩ := hb2 c hc
        exact ⟨Nat.le_of_lt h2, h3⟩
  · intro c hc
    simp only [List.tail_cons] at hc
    rcases List.mem_append.mp hc with hc | hc
    · exact (hb1 c hc).2.1
    · exact (hb2 c hc).2.1
  · refine List.pairwise_cons.mpr ⟨?_, ?_⟩
    · intro d hd x hx hdx
      unfold inChunk at hx hdx
      simp only at hx
      rcases List.mem_append.mp hd with hd | hd
      · have h3 := (hb1 d hd).2.2
        omega
      · have h1 := (hb2 d hd).1
        omega
    · refine List.pairwise_append.mpr ⟨?_, ?_, ?_⟩
      · refine hpw1.imp ?_
        intro c d hcd x hx hdx
        unfold inChunk at hx hdx
        omega
      · refine hpw2.imp ?_
        intro c d hcd x hx hdx
        unfold inChunk at hx hdx
        omega
      · intro c hc d hd x hx hdx
        unfold inChunk at hx hdx
        have h1 := (hb1 c hc).2.2
        have h2 := (hb2 d hd).1
        omega
  · intro x
    constructor
    · intro hx
      by_cases h1 : x < primaryStart file_size estimated_pos
      · obtain ⟨c, hc, hcx⟩ := (hcov1 x).mpr ⟨Nat.zero_le x, h1⟩
        exact ⟨c, List.mem_cons_of_mem _ (List.mem_append_left _ hc), hcx⟩
      · by_cases h2 : x < primaryEnd file_size estimated_pos
        · refine ⟨_, List.mem_cons_self _ _, ?_, h2⟩
          omega
        · obtain ⟨c, hc, hcx⟩ := (hcov2 x).mpr ⟨by omega, hx⟩
          exact ⟨c, List.mem_cons_of_mem _ (List.mem_append_right _ hc), hcx⟩
    · rintro ⟨c, hc, hcx⟩
      unfold inChunk at hcx
      rcases List.mem_cons.mp hc with hc | hc
      · rw [hc] at hcx
        simp only at hcx
        omega
      · rcases List.mem_append.mp hc with hc | hc
        · have h3 := (hb1 c hc).2.2
          omega
        · have h3 := (hb2 c hc).2.2
          omega

/-- The C2 amended theorem at file size 44 and estimated offset 22. -/
theorem planChunks_partition_witness :
    (22 : Int) ≤ ((44 : Nat) : Int) ∧ chunksPartitionP 44 (planChunks 44 22) :=
  ⟨by decide, planChunks_partition 44 22 (by decide)⟩

/-- The inner writing loop appends each line of one chunk result, followed
by a newline, and adds the number of lines to the count. -/
theorem foldl_write_lines (r : List (List Char)) : ∀ (a : List Char × Nat),
    r.foldl (fun a line => (a.1 ++ line ++ ['\n'], a.2 + 1)) a =
      (a.1 ++ (r.map (fun line => line ++ ['\n'])).flatten, a.2 + r.length) := by
  induction r with
  | nil =>
    intro a
    simp
  | cons x xs ih =>
    intro a
    simp only [List.foldl_cons, ih, List.map_cons, List.flatten_cons, List.length_cons]
    refine Prod.ext ?_ ?_
    · simp [List.append_assoc]
    · simp only
      omega

/-- The outer writing loop over all chunk results, from an arbitrary
accumulator. -/
theorem foldl_write_results (rs : List (List (List Char))) : ∀ (a : List Char × Nat),
    rs.foldl (fun acc result_set =>
        result_set.foldl (fun a line => (a.1 ++ line ++ ['\n'], a.2 + 1)) acc) a =
      (a.1 ++ (rs.flatten.map (fun line => line ++ ['\n'])).flatten,
        a.2 + rs.flatten.length) := by
  induction rs with
  | nil =>
    intro a
    simp
  | cons r rs ih =>
    intro a
    rw [List.foldl_cons, foldl_write_lines, ih]
    simp only [List.flatten_cons, List.map_append, List.flatten_append, List.length_append]
    refine Prod.ext ?_ ?_
    · simp [List.append_assoc]
    · simp only
      omega

/-- C10: the planner emits the primary chunk first, then the prefix
coverage chunks, then the suffix coverage chunks, each group in ascending
offset order (every chunk ends no later than the next begins, and chunks
are nonempty, so starts strictly ascend); and the aggregator writes the
matched lines in exactly the order received — the flattened results in
chunk-emission order, each line followed by a newline — counting every
written line, with no sorting and no deduplication. -/
theorem plan_order_and_aggregation (file_size : Nat) (estimated_pos : Int)
    (chunk_results : List (List (List Char))) :
    (planChunks file_size estimated_pos =
      (primaryStart file_size estimated_pos, primaryEnd file_size estimated_pos) ::
        (coverChunks 0 (primaryStart file_size estimated_pos) ++
         coverChunks (primaryEnd file_size estimated_pos) file_size) ∧
     List.Pairwise (fun c d => c.2 ≤ d.1)
       (coverChunks 0 (primaryStart file_size estimated_pos)) ∧
     (∀ c ∈ coverChunks 0 (primaryStart file_size estimated_pos),
        c.1 < c.2 ∧ c.2 ≤ primaryStart file_size estimated_pos) ∧
     List.Pairwise (fun c d => c.2 ≤ d.1)
       (coverChunks (primaryEnd file_size estimated_pos) file_size) ∧
     (∀ c ∈ coverChunks (primaryEnd file_size estimated_pos) file_size,
        primaryEnd file_size estimated_pos ≤ c.1 ∧ c.1 < c.2 ∧ c.2 ≤ file_size)) ∧
    write_results chunk_results =
      ((chunk_results.flatten.map (fun line => line ++ ['\n'])).flatten,
        chunk_results.flatten.length) := by
  obtain ⟨hb1, hpw1, hcov1⟩ := coverChunks_props 0 (primaryStart file_size estimated_pos)
  obtain ⟨hb2, hpw2, hcov2⟩ := coverChunks_props (primaryEnd file_size estimated_pos) file_size
  refine ⟨⟨rfl, hpw1, ?_, hpw2, ?_⟩, ?_⟩
  · intro c hc
    exact (hb1 c hc).2
  · exact hb2
  · unfold write_results
    rw [foldl_write_results]
    simp

end ExtractLogs
